import Mathlib

/-!
Verification of the schema-normalization engine in
`agenta-web/src/components/PlaygroundTest/betterTypes/transformers/schemaExtractors.ts`.

Schema nodes are dynamic JSON objects in the source; we embed them as a record
with one optional field per key the engine inspects (`type`, `anyOf`, `title`,
`description`, `default`, `enum`, `choices`) plus an association list for the
remaining keys, so that JavaScript object spreads, `in` probes, `||` and `??`
keep their exact semantics.
-/

namespace SchemaExtractors

/-- A JSON value.  Numbers are restricted to integers (the engine never does
arithmetic on them; they only flow through `String(...)` coercions). -/
inductive Json : Type where
  | null : Json
  | bool (b : Bool) : Json
  | num (n : Int) : Json
  | str (s : String) : Json
  | arr (xs : List Json) : Json
  | obj (fields : List (String × Json)) : Json

/-- Whether a JSON value is a string. -/
def Json.isStr : Json → Bool
  | .str _ => true
  | _ => false

mutual

/-- JavaScript `String(v)` on a JSON value. -/
def jsToString : Json → String
  | .null => "null"
  | .bool b => if b then "true" else "false"
  | .num n => toString n
  | .str s => s
  | .arr xs => String.intercalate "," (jsToStringList xs)
  | .obj _ => "[object Object]"

/-- JavaScript array `join(",")` element coercions (null becomes the empty
string inside a join). -/
def jsToStringList : List Json → List String
  | [] => []
  | .null :: xs => "" :: jsToStringList xs
  | x :: xs => jsToString x :: jsToStringList xs

end

/-- The `choices` payload: either an ordered list of `{label, value}` pairs or
a mapping from group name to an ordered list of values (the two shapes the
TypeScript code distinguishes with `Array.isArray`). -/
inductive Choices : Type where
  | pairs (cs : List (Json × Json)) : Choices
  | groups (gs : List (String × List Json)) : Choices

/-- Whether every label/value carried by a `Choices` payload is a string. -/
def choicesAllStrings : Choices → Bool
  | .pairs cs => cs.all (fun c => c.1.isStr && c.2.isStr)
  | .groups gs => gs.all (fun kv => kv.2.all Json.isStr)

/-- A schema node: a JavaScript object with the keys the engine probes made
explicit (absent key = `none`) and every other key kept in `extra`.

The `enum` key alone is two-level: `none` is an absent key, `some none` is a
key present with the `undefined` value, `some (some xs)` is a key holding an
array.  The distinction is needed for this key only, because the program's
`typedSelectedSchema` construction (`{...selectedSchema, enum: ...}`) is the
one place an explicitly assigned, possibly-`undefined` key later meets an
object spread, where a present-but-`undefined` key still overrides the
parent's value. -/
inductive SchemaNode : Type where
  | mk (type? : Option String)
       (anyOf? : Option (List SchemaNode))
       (title? : Option String)
       (description? : Option String)
       (default? : Option Json)
       (enum? : Option (Option (List Json)))
       (choices? : Option Choices)
       (extra : List (String × Json)) : SchemaNode

/-- The node's `type` key. -/
def SchemaNode.type? : SchemaNode → Option String
  | .mk t _ _ _ _ _ _ _ => t

/-- The node's `anyOf` key. -/
def SchemaNode.anyOf? : SchemaNode → Option (List SchemaNode)
  | .mk _ a _ _ _ _ _ _ => a

/-- The node's `title` key. -/
def SchemaNode.title? : SchemaNode → Option String
  | .mk _ _ t _ _ _ _ _ => t

/-- The node's `description` key. -/
def SchemaNode.description? : SchemaNode → Option String
  | .mk _ _ _ d _ _ _ _ => d

/-- The node's `default` key. -/
def SchemaNode.default? : SchemaNode → Option Json
  | .mk _ _ _ _ d _ _ _ => d

/-- The node's `enum` key (see the node type's doc comment for the two
levels). -/
def SchemaNode.enum? : SchemaNode → Option (Option (List Json))
  | .mk _ _ _ _ _ e _ _ => e

/-- The value JavaScript reads for `node.enum`: `undefined` (here `none`)
when the key is absent or present with the `undefined` value. -/
def SchemaNode.enumValue : SchemaNode → Option (List Json)
  | .mk _ _ _ _ _ e _ _ => e.getD none

/-- The node's `choices` key. -/
def SchemaNode.choices? : SchemaNode → Option Choices
  | .mk _ _ _ _ _ _ c _ => c

/-- The node's remaining keys. -/
def SchemaNode.extra : SchemaNode → List (String × Json)
  | .mk _ _ _ _ _ _ _ e => e

instance : Inhabited SchemaNode := ⟨.mk none none none none none none none []⟩

/-- JavaScript object spread on one optional key: `{...p, ...c}` keeps `c`'s
value when the key is present in `c`, else `p`'s. -/
def jsSpreadOpt {α : Type} (p c : Option α) : Option α :=
  match c with
  | some v => some v
  | none => p

/-- JavaScript `c || p` on an optional string: a present but empty (falsy)
string falls through to `p`. -/
def jsOrStr (c p : Option String) : Option String :=
  match c with
  | some s => if s = "" then p else some s
  | none => p

/-- JavaScript `c ?? p` on an optional JSON value: `undefined` (absent) and
`null` both fall through to `p`. -/
def jsNullish (c p : Option Json) : Option Json :=
  match c with
  | some .null => p
  | some v => some v
  | none => p

/-- JavaScript object spread on the association list of remaining keys:
`p`'s keys in order with values overridden by `c` on collision, then `c`'s
fresh keys in order. -/
def mergeExtra (p c : List (String × Json)) : List (String × Json) :=
  (p.map (fun kv =>
      match c.find? (fun kv2 => kv2.1 == kv.1) with
      | some kv2 => (kv.1, kv2.2)
      | none => kv)) ++
    c.filter (fun kv2 => !(p.any (fun kv => kv.1 == kv2.1)))

/-- Modelled from the spec: the Schema Classifier's `hasType` predicate
(`utilities/schema.ts` is not part of the sources) — true iff a `type` field
is present at all. -/
def hasType (s : SchemaNode) : Bool :=
  s.type?.isSome

/-- Modelled from the spec: `isSchema.primitive` — the node's `type` field,
when present, is one of the scalar kinds string/number/boolean/integer. -/
def isSchema.primitive (s : SchemaNode) : Bool :=
  match s.type? with
  | some t => t == "string" || t == "number" || t == "boolean" || t == "integer"
  | none => false

/-- Modelled from the spec: `isSchema.array` — the node's `type` field is
present and equal to "array". -/
def isSchema.array (s : SchemaNode) : Bool :=
  s.type? == some "array"

/-- Modelled from the spec: `isSchema.object` — the node's `type` field is
present and equal to "object". -/
def isSchema.object (s : SchemaNode) : Bool :=
  s.type? == some "object"

/-- The two `throw new Error(...)` sites of the engine:  `emptyUnion` is
"No valid non-null schema found in anyOf", `invalidSchemaShape` is
"Invalid schema type". -/
inductive SchemaError : Type where
  | emptyUnion : SchemaError
  | invalidSchemaShape : SchemaError
deriving DecidableEq

/-- The `ExtractedSchema` interface: the chosen schema, the (never assigned)
optional parent metadata fields, and the nullability flag. -/
structure ExtractedSchema : Type where
  schema : SchemaNode
  parentTitle? : Option String
  parentDescription? : Option String
  isNullable : Bool

/-- The `anyOf` key removed: `const {anyOf, ...parentMetadata} = anyOfSchema`. -/
def removeAnyOf : SchemaNode → SchemaNode
  | .mk t _ ti d df e c ex => .mk t none ti d df e c ex

/-- The `choices` normalization of `createPrimitiveSchema`: labels and values
of a pair list, and the grouped values, are coerced with `String(...)`. -/
def processChoices : Choices → Choices
  | .pairs cs => .pairs (cs.map (fun p => (.str (jsToString p.1), .str (jsToString p.2))))
  | .groups gs => .groups (gs.map (fun kv => (kv.1, kv.2.map (fun v => .str (jsToString v)))))

/-- `createPrimitiveSchema(parentMetadata, selectedSchema, schemaType)`:
the merged node for a primitive (non-array, non-object) selected schema.
`choices` is the child's if present else the parent's, then normalized by
coercing labels/values to strings; the `enum` key is explicitly assigned the
child's enum value (the `as string[] | undefined` cast has no runtime
effect), so the key is always present in the result. -/
def createPrimitiveSchema (parentMetadata selectedSchema : SchemaNode)
    (schemaType : String) : SchemaNode :=
  let choices := jsSpreadOpt parentMetadata.choices? selectedSchema.choices?
  let processedChoices := choices.map processChoices
  .mk (some schemaType)
      (jsSpreadOpt parentMetadata.anyOf? selectedSchema.anyOf?)
      (jsOrStr selectedSchema.title? parentMetadata.title?)
      (jsOrStr selectedSchema.description? parentMetadata.description?)
      (jsNullish selectedSchema.default? parentMetadata.default?)
      (some selectedSchema.enumValue)
      processedChoices
      (mergeExtra parentMetadata.extra selectedSchema.extra)

/-- `combineSchemas(parentMetadata, selectedSchema)`: dispatch on the selected
schema's `type` ("array" / "object" / primitive default), else the plain
spread for a selected schema that only carries `anyOf`, else the
"Invalid schema type" throw. -/
def combineSchemas (parentMetadata selectedSchema : SchemaNode) :
    Except SchemaError SchemaNode :=
  match selectedSchema.type? with
  | some schemaType =>
    if schemaType = "array" then
      .ok (.mk (some "array")
          (jsSpreadOpt parentMetadata.anyOf? selectedSchema.anyOf?)
          (jsOrStr selectedSchema.title? parentMetadata.title?)
          (jsOrStr selectedSchema.description? parentMetadata.description?)
          (jsNullish selectedSchema.default? parentMetadata.default?)
          (jsSpreadOpt parentMetadata.enum? selectedSchema.enum?)
          (jsSpreadOpt parentMetadata.choices? selectedSchema.choices?)
          (mergeExtra parentMetadata.extra selectedSchema.extra))
    else if schemaType = "object" then
      .ok (.mk (some "object")
          (jsSpreadOpt parentMetadata.anyOf? selectedSchema.anyOf?)
          (jsOrStr selectedSchema.title? parentMetadata.title?)
          (jsOrStr selectedSchema.description? parentMetadata.description?)
          (jsNullish selectedSchema.default? parentMetadata.default?)
          (jsSpreadOpt parentMetadata.enum? selectedSchema.enum?)
          (jsSpreadOpt parentMetadata.choices? selectedSchema.choices?)
          (mergeExtra parentMetadata.extra selectedSchema.extra))
    else
      .ok (createPrimitiveSchema parentMetadata selectedSchema schemaType)
  | none =>
    match selectedSchema.anyOf? with
    | some nested =>
      .ok (.mk (jsSpreadOpt parentMetadata.type? selectedSchema.type?)
          (some nested)
          (jsSpreadOpt parentMetadata.title? selectedSchema.title?)
          (jsSpreadOpt parentMetadata.description? selectedSchema.description?)
          (jsSpreadOpt parentMetadata.default? selectedSchema.default?)
          (jsSpreadOpt parentMetadata.enum? selectedSchema.enum?)
          (jsSpreadOpt parentMetadata.choices? selectedSchema.choices?)
          (mergeExtra parentMetadata.extra selectedSchema.extra))
    | none => .error .invalidSchemaShape

/-- The filter on line 111: alternatives that carry a `type` other than
"null". -/
def nonNullSchemasOf (alts : List SchemaNode) : List SchemaNode :=
  alts.filter (fun s => hasType s && !(s.type? == some "null"))

/-- The selection chain on lines 122–126: first primitive, else first array,
else first object, else `nonNullSchemas[0]` (passed as `first`). -/
def selectedSchemaOf (nonNullSchemas : List SchemaNode) (first : SchemaNode) :
    SchemaNode :=
  ((((nonNullSchemas.find? isSchema.primitive).orElse
      (fun _ => nonNullSchemas.find? isSchema.array)).orElse
      (fun _ => nonNullSchemas.find? isSchema.object)).getD first)

/-- The intermediate `typedSelectedSchema` of lines 129–132:
`{...selectedSchema, enum: selectedSchema.enum as string[] | undefined}`.
The `as` cast is compile-time only, but the object literal is not: it forces
an own `enum` key holding the (possibly `undefined`) value read from the
selected schema, so a later spread lets that key override a parent's enum. -/
def typedSelectedSchema (selectedSchema : SchemaNode) : SchemaNode :=
  match selectedSchema with
  | .mk t a ti d df e c ex => .mk t a ti d df (some (e.getD none)) c ex

/-- `extractFromAnyOf(anyOfSchema)`: filter out null-typed alternatives,
record nullability, fail on an empty remainder, select a representative,
force its `enum` key via the `typedSelectedSchema` construction and combine
it with the parent metadata. -/
def extractFromAnyOf (anyOfSchema : SchemaNode) :
    Except SchemaError ExtractedSchema :=
  let alts := anyOfSchema.anyOf?.getD []
  let isNullable := alts.any (fun s => hasType s && s.type? == some "null")
  match nonNullSchemasOf alts with
  | [] => .error .emptyUnion
  | first :: rest =>
    (combineSchemas (removeAnyOf anyOfSchema)
        (typedSelectedSchema (selectedSchemaOf (first :: rest) first))).map
      (fun combined =>
        { schema := combined
          parentTitle? := none
          parentDescription? := none
          isNullable := isNullable })

/-- `extractFromObject(objectSchema)`: pass-through with `isNullable` false. -/
def extractFromObject (objectSchema : SchemaNode) : ExtractedSchema :=
  { schema := objectSchema
    parentTitle? := none
    parentDescription? := none
    isNullable := false }

/-- `isAnyOfSchema(schema)`: the `"anyOf" in schema` probe. -/
def isAnyOfSchema (schema : SchemaNode) : Bool :=
  schema.anyOf?.isSome

/-- `extractSchema(schema)`: the public entry point — delegate unions to
`extractFromAnyOf`, return every other node unchanged. -/
def extractSchema (schema : SchemaNode) : Except SchemaError ExtractedSchema :=
  if isAnyOfSchema schema then
    extractFromAnyOf schema
  else
    .ok { schema := schema
          parentTitle? := none
          parentDescription? := none
          isNullable := false }

/-! Declarative specification vocabulary (from the spec's wording, used to
state the claims independently of the code's `find?` chains). -/

/-- The element `x` is the first element of `l` satisfying `p`: some prefix
of `l` contains no satisfying element and is immediately followed by `x`. -/
def firstWith {α : Type} (p : α → Bool) (l : List α) (x : α) : Prop :=
  ∃ l1 l2, l = l1 ++ x :: l2 ∧ p x = true ∧ ∀ y ∈ l1, p y = false

/-- The spec's representative-selection precedence over a list of candidate
alternatives: the first primitive, else the first array, else the first
object, else the first candidate in original order. -/
def precedenceSpec (l : List SchemaNode) (x : SchemaNode) : Prop :=
  if l.any isSchema.primitive = true then firstWith isSchema.primitive l x
  else if l.any isSchema.array = true then firstWith isSchema.array l x
  else if l.any isSchema.object = true then firstWith isSchema.object l x
  else l.head? = some x

/-! Concrete schema nodes used as test inputs, mirroring the JSON literals of
the spec's Testable Properties section. -/

/-- The alternative {"type":"string"}. -/
def altString : SchemaNode := .mk (some "string") none none none none none none []

/-- The alternative {"type":"null"} (the nullability marker). -/
def altNull : SchemaNode := .mk (some "null") none none none none none none []

/-- The alternative {"type":"object"}. -/
def altObject : SchemaNode := .mk (some "object") none none none none none none []

/-- An alternative carrying both a type and a nested anyOf key:
{"type":"string","anyOf":[{"type":"string"}]}. -/
def altTypeAndAnyOf : SchemaNode :=
  .mk (some "string") (some [altString]) none none none none none []

/-- An alternative that is itself a union with no type field:
{"anyOf":[{"type":"string"}]}. -/
def altUnionOnly : SchemaNode := .mk none (some [altString]) none none none none none []

/-- The alternative {"type":"string","enum":[1]}. -/
def altEnumNum : SchemaNode :=
  .mk (some "string") none none none none (some (some [.num 1])) none []

/-- The alternative {"type":"string","title":""}. -/
def altTitleEmpty : SchemaNode :=
  .mk (some "string") none (some "") none none none none []

/-- The alternative {"type":"string","default":null}. -/
def altDefaultNull : SchemaNode :=
  .mk (some "string") none none none (some .null) none none []

/-- The alternative {"type":"string","default":false}. -/
def altDefaultFalse : SchemaNode :=
  .mk (some "string") none none none (some (.bool false)) none none []

/-- The alternative {"type":"string","choices":[{"label":1,"value":2}]}. -/
def altChoicesNum : SchemaNode :=
  .mk (some "string") none none none none none (some (.pairs [(.num 1, .num 2)])) []

/-- The union {"anyOf":[{"type":"string"},{"type":"null"}]}. -/
def uNullable : SchemaNode := .mk none (some [altString, altNull]) none none none none none []

/-- The union {"anyOf":[{"type":"null"}]}. -/
def uOnlyNull : SchemaNode := .mk none (some [altNull]) none none none none none []

/-- The union whose only alternative carries both a type and an anyOf key. -/
def uBothKeys : SchemaNode := .mk none (some [altTypeAndAnyOf]) none none none none none []

/-- The union whose only alternative is itself a union with no type field. -/
def uNestedOnly : SchemaNode := .mk none (some [altUnionOnly]) none none none none none []

/-- The union {"anyOf":[{"type":"string","enum":[1]}],"enum":["z"]}. -/
def uEnum : SchemaNode :=
  .mk none (some [altEnumNum]) none none none (some (some [.str "z"])) none []

/-- The union {"anyOf":[{"type":"array"}],"enum":["z"]}: an enum-carrying
parent with an enum-less array representative (the forced enum key of the
typedSelectedSchema construction erases the parent's enum here). -/
def uEnumArray : SchemaNode :=
  .mk none (some [.mk (some "array") none none none none none none []])
    none none none (some (some [.str "z"])) none []

/-- The union {"anyOf":[{"type":"string"}],"title":"Name","default":"x"}. -/
def uMeta : SchemaNode :=
  .mk none (some [altString]) (some "Name") none (some (.str "x")) none none []

/-- The union {"anyOf":[{"type":"string","title":""}],"title":"Name"}. -/
def uTitleEmpty : SchemaNode :=
  .mk none (some [altTitleEmpty]) (some "Name") none none none none []

/-- The union {"anyOf":[{"type":"string","default":null}],"default":"x"}. -/
def uDefaultNull : SchemaNode :=
  .mk none (some [altDefaultNull]) none none (some (.str "x")) none none []

/-- The union {"anyOf":[{"type":"string","default":false}],"default":"x"}. -/
def uDefaultFalse : SchemaNode :=
  .mk none (some [altDefaultFalse]) none none (some (.str "x")) none none []

/-- The union {"anyOf":[{"type":"string","choices":[{"label":1,"value":2}]}]}. -/
def uChoices : SchemaNode := .mk none (some [altChoicesNum]) none none none none none []

/-- The union {"anyOf":[{"type":"object"},{"type":"string"}]}. -/
def uPrecedence : SchemaNode := .mk none (some [altObject, altString]) none none none none none []

/-- The plain node {"type":"integer","title":"Count"}. -/
def nCount : SchemaNode := .mk (some "integer") none (some "Count") none none none none []

/-! Helper lemmas. -/

theorem orElse_some_eq {α : Type} (a : α) (f : Unit → Option α) :
    (some a).orElse f = some a := rfl

theorem orElse_none_eq {α : Type} (f : Unit → Option α) :
    (none : Option α).orElse f = f () := rfl

theorem removeAnyOf_anyOf? (s : SchemaNode) : (removeAnyOf s).anyOf? = none := by
  cases s; rfl

theorem removeAnyOf_title? (s : SchemaNode) : (removeAnyOf s).title? = s.title? := by
  cases s; rfl

theorem removeAnyOf_description? (s : SchemaNode) :
    (removeAnyOf s).description? = s.description? := by
  cases s; rfl

theorem removeAnyOf_default? (s : SchemaNode) :
    (removeAnyOf s).default? = s.default? := by
  cases s; rfl

theorem removeAnyOf_enum? (s : SchemaNode) : (removeAnyOf s).enum? = s.enum? := by
  cases s; rfl

theorem removeAnyOf_choices? (s : SchemaNode) :
    (removeAnyOf s).choices? = s.choices? := by
  cases s; rfl

theorem typedSelectedSchema_type? (s : SchemaNode) :
    (typedSelectedSchema s).type? = s.type? := by
  cases s; rfl

theorem typedSelectedSchema_anyOf? (s : SchemaNode) :
    (typedSelectedSchema s).anyOf? = s.anyOf? := by
  cases s; rfl

theorem typedSelectedSchema_title? (s : SchemaNode) :
    (typedSelectedSchema s).title? = s.title? := by
  cases s; rfl

theorem typedSelectedSchema_description? (s : SchemaNode) :
    (typedSelectedSchema s).description? = s.description? := by
  cases s; rfl

theorem typedSelectedSchema_default? (s : SchemaNode) :
    (typedSelectedSchema s).default? = s.default? := by
  cases s; rfl

theorem typedSelectedSchema_choices? (s : SchemaNode) :
    (typedSelectedSchema s).choices? = s.choices? := by
  cases s; rfl

theorem typedSelectedSchema_enumValue (s : SchemaNode) :
    (typedSelectedSchema s).enumValue = s.enumValue := by
  cases s; rfl

theorem mem_nonNullSchemasOf {alts : List SchemaNode} {x : SchemaNode}
    (h : x ∈ nonNullSchemasOf alts) :
    x ∈ alts ∧ hasType x = true ∧ (x.type? == some "null") = false := by
  have h2 := List.mem_filter.mp h
  have h3 : hasType x = true ∧ (x.type? == some "null") = false := by
    have h4 := h2.2
    simp only [Bool.and_eq_true, Bool.not_eq_true'] at h4
    exact h4
  exact ⟨h2.1, h3.1, h3.2⟩

theorem selectedSchemaOf_mem (first : SchemaNode) (rest : List SchemaNode) :
    selectedSchemaOf (first :: rest) first ∈ first :: rest := by
  unfold selectedSchemaOf
  cases hp : (first :: rest).find? isSchema.primitive with
  | some x =>
    simp only [orElse_some_eq, Option.getD_some]
    exact List.mem_of_find?_eq_some hp
  | none =>
    simp only [orElse_none_eq]
    cases ha : (first :: rest).find? isSchema.array with
    | some x =>
      simp only [orElse_some_eq, Option.getD_some]
      exact List.mem_of_find?_eq_some ha
    | none =>
      simp only [orElse_none_eq]
      cases ho : (first :: rest).find? isSchema.object with
      | some x =>
        simp only [Option.getD_some]
        exact List.mem_of_find?_eq_some ho
      | none =>
        simp only [Option.getD_none]
        exact List.mem_cons_self first rest

theorem combineSchemas_typed (p s : SchemaNode) (t : String) (h : s.type? = some t) :
    ∃ c, combineSchemas p s = Except.ok c ∧
      c.anyOf? = jsSpreadOpt p.anyOf? s.anyOf? ∧
      c.title? = jsOrStr s.title? p.title? ∧
      c.description? = jsOrStr s.description? p.description? ∧
      c.default? = jsNullish s.default? p.default? := by
  unfold combineSchemas
  rw [h]
  dsimp only
  by_cases h1 : t = "array"
  · rw [if_pos h1]
    exact ⟨_, rfl, rfl, rfl, rfl, rfl⟩
  · rw [if_neg h1]
    by_cases h2 : t = "object"
    · rw [if_pos h2]
      exact ⟨_, rfl, rfl, rfl, rfl, rfl⟩
    · rw [if_neg h2]
      exact ⟨_, rfl, rfl, rfl, rfl, rfl⟩

theorem combineSchemas_primitive_eq (p s : SchemaNode) (t : String)
    (h : s.type? = some t) (h1 : t ≠ "array") (h2 : t ≠ "object") :
    combineSchemas p s = Except.ok (createPrimitiveSchema p s t) := by
  unfold combineSchemas
  rw [h]
  dsimp only
  rw [if_neg h1, if_neg h2]

theorem createPrimitiveSchema_enum? (p s : SchemaNode) (t : String) :
    (createPrimitiveSchema p s t).enum? = some s.enumValue := rfl

theorem createPrimitiveSchema_enumValue (p s : SchemaNode) (t : String) :
    (createPrimitiveSchema p s t).enumValue = s.enumValue := by
  cases s; rfl

theorem createPrimitiveSchema_choices? (p s : SchemaNode) (t : String) :
    (createPrimitiveSchema p s t).choices? =
      (jsSpreadOpt p.choices? s.choices?).map processChoices := rfl

theorem isSchema.primitive_type {s : SchemaNode} (h : isSchema.primitive s = true) :
    ∃ t, s.type? = some t ∧
      (t = "string" ∨ t = "number" ∨ t = "boolean" ∨ t = "integer") := by
  cases ht : s.type? with
  | none => rw [isSchema.primitive, ht] at h; exact absurd h (by simp)
  | some t =>
    refine ⟨t, rfl, ?_⟩
    rw [isSchema.primitive, ht] at h
    have h5 : ((t = "string" ∨ t = "number") ∨ t = "boolean") ∨ t = "integer" := by
      simpa using h
    tauto

theorem scalar_ne_array_object {t : String}
    (h : t = "string" ∨ t = "number" ∨ t = "boolean" ∨ t = "integer") :
    t ≠ "array" ∧ t ≠ "object" := by
  rcases h with rfl | rfl | rfl | rfl <;> exact ⟨by decide, by decide⟩

theorem extractSchema_not_anyOf {node : SchemaNode} (h : node.anyOf? = none) :
    extractSchema node =
      Except.ok { schema := node, parentTitle? := none, parentDescription? := none,
                  isNullable := false } := by
  simp [extractSchema, isAnyOfSchema, h]

theorem extractSchema_anyOf_nil {node : SchemaNode} {alts : List SchemaNode}
    (h1 : node.anyOf? = some alts) (h2 : nonNullSchemasOf alts = []) :
    extractSchema node = Except.error SchemaError.emptyUnion := by
  simp [extractSchema, isAnyOfSchema, extractFromAnyOf, h1, h2]

theorem extractSchema_anyOf_cons {node : SchemaNode} {alts : List SchemaNode}
    {first : SchemaNode} {rest : List SchemaNode}
    (h1 : node.anyOf? = some alts) (h2 : nonNullSchemasOf alts = first :: rest) :
    extractSchema node =
      (combineSchemas (removeAnyOf node)
          (typedSelectedSchema (selectedSchemaOf (first :: rest) first))).map
        (fun combined =>
          { schema := combined
            parentTitle? := none
            parentDescription? := none
            isNullable := alts.any (fun s => hasType s && s.type? == some "null") }) := by
  simp [extractSchema, isAnyOfSchema, extractFromAnyOf, h1, h2]

theorem anyNull_iff (alts : List SchemaNode) :
    (alts.any (fun s => hasType s && s.type? == some "null") = true) ↔
      ∃ a ∈ alts, a.type? = some "null" := by
  rw [List.any_eq_true]
  constructor
  · rintro ⟨a, ha, hpa⟩
    rw [Bool.and_eq_true] at hpa
    exact ⟨a, ha, by simpa using hpa.2⟩
  · rintro ⟨a, ha, hpa⟩
    exact ⟨a, ha, by simp [hasType, hpa]⟩

theorem find?_eq_some_iff_firstWith {α : Type} (p : α → Bool) (l : List α) (x : α) :
    l.find? p = some x ↔ firstWith p l x := by
  induction l with
  | nil =>
    simp only [List.find?, firstWith]
    constructor
    · intro h; cases h
    · rintro ⟨l1, l2, heq, -, -⟩; cases l1 <;> cases heq
  | cons a l ih =>
    cases hpa : p a with
    | true =>
      rw [List.find?_cons_of_pos _ hpa]
      constructor
      · intro h
        have hax : a = x := by injection h
        subst hax
        exact ⟨[], l, rfl, hpa, by intro y hy; cases hy⟩
      · rintro ⟨l1, l2, heq, hx, hall⟩
        cases l1 with
        | nil =>
          simp only [List.nil_append] at heq
          injection heq with heq1 heq2
          rw [heq1]
        | cons b l1 =>
          injection heq with heq1 heq2
          have hpb := hall b (List.mem_cons_self b l1)
          rw [← heq1] at hpb
          rw [hpa] at hpb
          cases hpb
    | false =>
      rw [List.find?_cons_of_neg _ (by simp [hpa])]
      rw [ih]
      constructor
      · rintro ⟨l1, l2, heq, hx, hall⟩
        refine ⟨a :: l1, l2, by rw [List.cons_append, heq], hx, ?_⟩
        intro y hy
        rcases List.mem_cons.mp hy with hya | hyl
        · rw [hya]; exact hpa
        · exact hall y hyl
      · rintro ⟨l1, l2, heq, hx, hall⟩
        cases l1 with
        | nil =>
          simp only [List.nil_append] at heq
          injection heq with heq1 heq2
          rw [← heq1] at hx
          rw [hpa] at hx
          cases hx
        | cons b l1 =>
          injection heq with heq1 heq2
          exact ⟨l1, l2, heq2, hx, fun y hy => hall y (List.mem_cons_of_mem b hy)⟩

theorem any_false_of_find?_none {α : Type} {p : α → Bool} {l : List α}
    (h : l.find? p = none) : ¬ (l.any p = true) := by
  rw [List.any_eq_true]
  rintro ⟨y, hy, hpy⟩
  exact (List.find?_eq_none.mp h y hy) hpy

theorem selectedSchemaOf_precedenceSpec (first : SchemaNode) (rest : List SchemaNode) :
    precedenceSpec (first :: rest) (selectedSchemaOf (first :: rest) first) := by
  unfold selectedSchemaOf precedenceSpec
  cases hp : (first :: rest).find? isSchema.primitive with
  | some x =>
    have hany : (first :: rest).any isSchema.primitive = true :=
      List.any_eq_true.mpr ⟨x, List.mem_of_find?_eq_some hp, List.find?_some hp⟩
    rw [if_pos hany]
    simp only [orElse_some_eq, Option.getD_some]
    exact (find?_eq_some_iff_firstWith _ _ _).mp hp
  | none =>
    rw [if_neg (any_false_of_find?_none hp)]
    simp only [orElse_none_eq]
    cases ha : (first :: rest).find? isSchema.array with
    | some x =>
      have hany : (first :: rest).any isSchema.array = true :=
        List.any_eq_true.mpr ⟨x, List.mem_of_find?_eq_some ha, List.find?_some ha⟩
      rw [if_pos hany]
      simp only [orElse_some_eq, Option.getD_some]
      exact (find?_eq_some_iff_firstWith _ _ _).mp ha
    | none =>
      rw [if_neg (any_false_of_find?_none ha)]
      simp only [orElse_none_eq]
      cases ho : (first :: rest).find? isSchema.object with
      | some x =>
        have hany : (first :: rest).any isSchema.object = true :=
          List.any_eq_true.mpr ⟨x, List.mem_of_find?_eq_some ho, List.find?_some ho⟩
        rw [if_pos hany]
        simp only [Option.getD_some]
        exact (find?_eq_some_iff_firstWith _ _ _).mp ho
      | none =>
        rw [if_neg (any_false_of_find?_none ho)]
        simp only [Option.getD_none]
        rfl

theorem typedSelectedSchema_clobbers_parent_enum :
    ∃ r, extractSchema uEnumArray = Except.ok r ∧
      r.schema.enumValue = none ∧ uEnumArray.enumValue = some [Json.str "z"] :=
  ⟨_, rfl, rfl, rfl⟩

theorem choicesAllStrings_processChoices (c : Choices) :
    choicesAllStrings (processChoices c) = true := by
  cases c with
  | pairs cs =>
    show ((cs.map _).all _) = true
    rw [List.all_map, List.all_eq_true]
    intro x hx
    rfl
  | groups gs =>
    show ((gs.map _).all _) = true
    rw [List.all_map, List.all_eq_true]
    intro x hx
    show ((x.2.map _).all Json.isStr) = true
    rw [List.all_map, List.all_eq_true]
    intro y hy
    rfl

/-! Claim theorems. -/

/-- C9: Pass-through identity — for every schema node that does not carry an
anyOf field, extractSchema returns that very node unchanged as the schema
together with isNullable = false. -/
theorem extract_passthrough_identity (node : SchemaNode) (h : node.anyOf? = none) :
    extractSchema node =
      Except.ok { schema := node, parentTitle? := none, parentDescription? := none,
                  isNullable := false } :=
  extractSchema_not_anyOf h

/-- C9 witness: extractSchema on {"type":"integer","title":"Count"} returns
the same node unchanged with isNullable = false. -/
theorem extract_passthrough_identity_witness :
    extractSchema nCount =
      Except.ok { schema := nCount, parentTitle? := none, parentDescription? := none,
                  isNullable := false } :=
  extract_passthrough_identity nCount rfl

/-- C3: Empty-union failure — for every input whose anyOf list is empty or
whose only members are "type":"null" markers, extractSchema fails with the
EmptyUnionError (no partial result is returned). -/
theorem extract_empty_union_fails (node : SchemaNode) (alts : List SchemaNode)
    (h1 : node.anyOf? = some alts) (h2 : ∀ a ∈ alts, a.type? = some "null") :
    extractSchema node = Except.error SchemaError.emptyUnion := by
  have hnn : nonNullSchemasOf alts = [] := by
    rw [nonNullSchemasOf, List.filter_eq_nil_iff]
    intro a ha
    simp [hasType, h2 a ha]
  exact extractSchema_anyOf_nil h1 hnn

/-- C3 witness: extractSchema on {"anyOf":[{"type":"null"}]} fails with the
EmptyUnionError. -/
theorem extract_empty_union_fails_witness :
    extractSchema uOnlyNull = Except.error SchemaError.emptyUnion := by
  refine extract_empty_union_fails uOnlyNull [altNull] rfl ?_
  intro a ha
  rcases List.mem_cons.mp ha with haeq | hmem
  · rw [haeq]; rfl
  · cases hmem

/-- C4: Nullability correctness — for every union node on which extractSchema
succeeds, the returned isNullable is true iff the anyOf list explicitly
contains an alternative whose type is exactly "null". -/
theorem extract_isNullable_iff (node : SchemaNode) (alts : List SchemaNode)
    (r : ExtractedSchema) (h1 : node.anyOf? = some alts)
    (h2 : extractSchema node = Except.ok r) :
    (r.isNullable = true ↔ ∃ a ∈ alts, a.type? = some "null") := by
  cases hnn : nonNullSchemasOf alts with
  | nil =>
    rw [extractSchema_anyOf_nil h1 hnn] at h2
    cases h2
  | cons first rest =>
    rw [extractSchema_anyOf_cons h1 hnn] at h2
    have hmem : selectedSchemaOf (first :: rest) first ∈ nonNullSchemasOf alts := by
      rw [hnn]; exact selectedSchemaOf_mem first rest
    obtain ⟨-, htype, -⟩ := mem_nonNullSchemasOf hmem
    have htype2 : (selectedSchemaOf (first :: rest) first).type?.isSome = true := htype
    obtain ⟨t, ht⟩ := Option.isSome_iff_exists.mp htype2
    obtain ⟨c, hc, -, -, -, -⟩ :=
      combineSchemas_typed (removeAnyOf node)
        (typedSelectedSchema (selectedSchemaOf (first :: rest) first)) t
        (by rw [typedSelectedSchema_type?]; exact ht)
    rw [hc] at h2
    have h3 : (Except.ok
        { schema := c, parentTitle? := none, parentDescription? := none,
          isNullable := alts.any (fun s => hasType s && s.type? == some "null") } :
          Except SchemaError ExtractedSchema) = Except.ok r := h2
    injection h3 with h4
    rw [← h4]
    exact anyNull_iff alts

/-- C4 witness: extractSchema on {"anyOf":[{"type":"string"},{"type":"null"}]}
yields isNullable = true and a schema with type "string". -/
theorem extract_isNullable_iff_witness :
    ∃ r, extractSchema uNullable = Except.ok r ∧ r.isNullable = true ∧
      r.schema.type? = some "string" := by
  refine ⟨_, rfl, ?_, rfl⟩
  exact (extract_isNullable_iff uNullable [altString, altNull] _ rfl rfl).mpr
    ⟨altNull, List.mem_cons_of_mem altString (List.mem_cons_self altNull []), rfl⟩

/-- C10: the InvalidSchemaShape error ("Invalid schema type") is unreachable
through the public entry point — extractSchema never returns it: non-union
nodes are passed through with no shape validation, and in the union path the
selected representative always carries a type field because untyped
alternatives are filtered out before selection. -/
theorem extract_never_invalidSchemaShape (node : SchemaNode) :
    extractSchema node ≠ Except.error SchemaError.invalidSchemaShape := by
  intro hbad
  cases hao : node.anyOf? with
  | none =>
    rw [extractSchema_not_anyOf hao] at hbad
    cases hbad
  | some alts =>
    cases hnn : nonNullSchemasOf alts with
    | nil =>
      rw [extractSchema_anyOf_nil hao hnn] at hbad
      injection hbad with h
      cases h
    | cons first rest =>
      rw [extractSchema_anyOf_cons hao hnn] at hbad
      have hmem : selectedSchemaOf (first :: rest) first ∈ nonNullSchemasOf alts := by
        rw [hnn]; exact selectedSchemaOf_mem first rest
      obtain ⟨-, htype, -⟩ := mem_nonNullSchemasOf hmem
      have htype2 : (selectedSchemaOf (first :: rest) first).type?.isSome = true := htype
      obtain ⟨t, ht⟩ := Option.isSome_iff_exists.mp htype2
      obtain ⟨c, hc, -, -, -, -⟩ :=
        combineSchemas_typed (removeAnyOf node)
        (typedSelectedSchema (selectedSchemaOf (first :: rest) first)) t
        (by rw [typedSelectedSchema_type?]; exact ht)
      rw [hc] at hbad
      have h3 : (Except.ok
          { schema := c, parentTitle? := none, parentDescription? := none,
            isNullable := alts.any (fun s => hasType s && s.type? == some "null") } :
            Except SchemaError ExtractedSchema) = Except.error SchemaError.invalidSchemaShape := hbad
      cases h3

/-- C1 counterexample: the claim as stated fails — on the input
{"anyOf":[{"type":"string","anyOf":[{"type":"string"}]}]} extractSchema
succeeds, yet the returned schema still carries an anyOf key at the top
level, because the selected alternative's own anyOf key survives the
object spread. -/
theorem extract_union_elimination_cex :
    ∃ r, extractSchema uBothKeys = Except.ok r ∧ r.schema.anyOf?.isSome = true :=
  ⟨_, rfl, rfl⟩

/-- C1 amended: for every input whose union alternatives do not themselves
carry both a type and an anyOf key (the shapes of the documented input
format), whenever extractSchema succeeds the returned schema carries no
anyOf key at the top level. -/
theorem extract_union_elimination (node : SchemaNode)
    (hwf : ∀ a ∈ node.anyOf?.getD [], hasType a = true → a.anyOf? = none) :
    ∀ r, extractSchema node = Except.ok r → r.schema.anyOf? = none := by
  intro r hr
  cases hao : node.anyOf? with
  | none =>
    rw [extractSchema_not_anyOf hao] at hr
    injection hr with hr2
    rw [← hr2]
    exact hao
  | some alts =>
    cases hnn : nonNullSchemasOf alts with
    | nil =>
      rw [extractSchema_anyOf_nil hao hnn] at hr
      cases hr
    | cons first rest =>
      rw [extractSchema_anyOf_cons hao hnn] at hr
      have hmem : selectedSchemaOf (first :: rest) first ∈ nonNullSchemasOf alts := by
        rw [hnn]; exact selectedSchemaOf_mem first rest
      obtain ⟨hmemalts, htype, -⟩ := mem_nonNullSchemasOf hmem
      have htype2 : (selectedSchemaOf (first :: rest) first).type?.isSome = true := htype
      obtain ⟨t, ht⟩ := Option.isSome_iff_exists.mp htype2
      obtain ⟨c, hc, hcanyof, -, -, -⟩ :=
        combineSchemas_typed (removeAnyOf node)
        (typedSelectedSchema (selectedSchemaOf (first :: rest) first)) t
        (by rw [typedSelectedSchema_type?]; exact ht)
      rw [hc] at hr
      have h3 : (Except.ok
          { schema := c, parentTitle? := none, parentDescription? := none,
            isNullable := alts.any (fun s => hasType s && s.type? == some "null") } :
            Except SchemaError ExtractedSchema) = Except.ok r := hr
      injection h3 with h4
      rw [← h4]
      show c.anyOf? = none
      have hselanyof : (selectedSchemaOf (first :: rest) first).anyOf? = none := by
        refine hwf (selectedSchemaOf (first :: rest) first) ?_ htype
        rw [hao]
        exact hmemalts
      rw [hcanyof, removeAnyOf_anyOf?, typedSelectedSchema_anyOf?, hselanyof]
      rfl

/-- C1 witness: on the valid union {"anyOf":[{"type":"string"},{"type":"null"}]}
the extracted schema carries no anyOf key. -/
theorem extract_union_elimination_witness :
    ∃ r, extractSchema uNullable = Except.ok r ∧ r.schema.anyOf? = none := by
  refine ⟨_, rfl, ?_⟩
  refine extract_union_elimination uNullable ?_ _ rfl
  intro a ha hta
  rcases List.mem_cons.mp ha with haeq | hmem
  · rw [haeq]; rfl
  · rcases List.mem_cons.mp hmem with haeq2 | hmem2
    · rw [haeq2]; rfl
    · cases hmem2

/-- C2 counterexample: the claim as stated fails — the union
{"anyOf":[{"anyOf":[{"type":"string"}]}]} has one alternative that is not the
null marker, yet extractSchema fails with EmptyUnionError instead of
selecting that first alternative, because alternatives without a type field
are filtered out before selection. -/
theorem extract_precedence_cex :
    uNestedOnly.anyOf? = some [altUnionOnly] ∧
    (altUnionOnly.type? = some "null" → False) ∧
    extractSchema uNestedOnly = Except.error SchemaError.emptyUnion := by
  refine ⟨rfl, ?_, rfl⟩
  intro h
  cases h

/-- C2 amended: selection precedence applies to the alternatives that carry a
type other than "null"; alternatives lacking a type field are filtered out
before selection, so when no alternative carries a non-null type the resolver
fails with EmptyUnionError, and otherwise the representative is the first
primitive, else the first array, else the first object, else the first of the
remaining alternatives in original order, and the result's schema is the
combination of the parent metadata with that representative after the
enum-key-forcing typedSelectedSchema construction. -/
theorem extract_precedence (node : SchemaNode) (alts : List SchemaNode)
    (h1 : node.anyOf? = some alts) :
    (nonNullSchemasOf alts = [] →
      extractSchema node = Except.error SchemaError.emptyUnion) ∧
    (∀ first rest, nonNullSchemasOf alts = first :: rest →
      ∃ sel r, precedenceSpec (first :: rest) sel ∧
        extractSchema node = Except.ok r ∧
        combineSchemas (removeAnyOf node) (typedSelectedSchema sel) =
          Except.ok r.schema) := by
  constructor
  · intro h2
    exact extractSchema_anyOf_nil h1 h2
  · intro first rest h2
    have hspec := selectedSchemaOf_precedenceSpec first rest
    have hmem : selectedSchemaOf (first :: rest) first ∈ nonNullSchemasOf alts := by
      rw [h2]; exact selectedSchemaOf_mem first rest
    obtain ⟨-, htype, -⟩ := mem_nonNullSchemasOf hmem
    have htype2 : (selectedSchemaOf (first :: rest) first).type?.isSome = true := htype
    obtain ⟨t, ht⟩ := Option.isSome_iff_exists.mp htype2
    obtain ⟨c, hc, -, -, -, -⟩ :=
      combineSchemas_typed (removeAnyOf node)
        (typedSelectedSchema (selectedSchemaOf (first :: rest) first)) t
        (by rw [typedSelectedSchema_type?]; exact ht)
    refine ⟨selectedSchemaOf (first :: rest) first,
      { schema := c, parentTitle? := none, parentDescription? := none,
        isNullable := alts.any (fun s => hasType s && s.type? == some "null") },
      hspec, ?_, ?_⟩
    · rw [extractSchema_anyOf_cons h1 h2, hc]
      rfl
    · exact hc

/-- C2 witness: on {"anyOf":[{"type":"object"},{"type":"string"}]} the
resolver succeeds and the characterized representative is selected by the
primitive-first precedence. -/
theorem extract_precedence_witness :
    ∃ sel r, precedenceSpec [altObject, altString] sel ∧
      extractSchema uPrecedence = Except.ok r ∧
      combineSchemas (removeAnyOf uPrecedence) (typedSelectedSchema sel) =
        Except.ok r.schema :=
  (extract_precedence uPrecedence [altObject, altString] rfl).2 altObject [altString] rfl

/-- C5 counterexample: the claim as stated fails — on the input
{"anyOf":[{"type":"string","enum":[1]}],"enum":["z"]} the returned schema's
enum still contains the non-string entry 1: the "as string[]" cast in the
source is compile-time only and performs no runtime coercion. -/
theorem extract_enum_normalization_cex :
    ∃ r, extractSchema uEnum = Except.ok r ∧
      r.schema.enumValue = some [Json.num 1] ∧ (Json.num 1).isStr = false :=
  ⟨_, rfl, rfl, rfl⟩

/-- C5 amended: for every union resolution selecting a primitive, the
selected alternative's enum value is passed through unchanged (no entry
coercion), and the parent union's enum is never merged into the selected
primitive. -/
theorem extract_enum_passthrough (node : SchemaNode) (alts : List SchemaNode)
    (first : SchemaNode) (rest : List SchemaNode)
    (h1 : node.anyOf? = some alts) (h2 : nonNullSchemasOf alts = first :: rest)
    (h3 : isSchema.primitive (selectedSchemaOf (first :: rest) first) = true) :
    ∃ r, extractSchema node = Except.ok r ∧
      r.schema.enum? = some (selectedSchemaOf (first :: rest) first).enumValue ∧
      r.schema.enumValue = (selectedSchemaOf (first :: rest) first).enumValue := by
  obtain ⟨t, ht, hscalar⟩ := isSchema.primitive_type h3
  obtain ⟨hna, hno⟩ := scalar_ne_array_object hscalar
  have hcomb := combineSchemas_primitive_eq (removeAnyOf node)
    (typedSelectedSchema (selectedSchemaOf (first :: rest) first)) t
    (by rw [typedSelectedSchema_type?]; exact ht) hna hno
  refine ⟨{ schema := createPrimitiveSchema (removeAnyOf node)
              (typedSelectedSchema (selectedSchemaOf (first :: rest) first)) t,
            parentTitle? := none, parentDescription? := none,
            isNullable := alts.any (fun s => hasType s && s.type? == some "null") },
    ?_, ?_, ?_⟩
  · rw [extractSchema_anyOf_cons h1 h2, hcomb]
    rfl
  · rw [createPrimitiveSchema_enum?, typedSelectedSchema_enumValue]
  · rw [createPrimitiveSchema_enumValue, typedSelectedSchema_enumValue]

/-- C5 witness: on {"anyOf":[{"type":"string","enum":[1]}],"enum":["z"]} the
result's enum is exactly the child's [1] even though the parent carries its
own enum. -/
theorem extract_enum_passthrough_witness :
    ∃ r, extractSchema uEnum = Except.ok r ∧
      r.schema.enumValue = some [Json.num 1] ∧
      uEnum.enumValue = some [Json.str "z"] := by
  obtain ⟨r, hok, -, henum⟩ :=
    extract_enum_passthrough uEnum [altEnumNum] altEnumNum [] rfl rfl rfl
  refine ⟨r, hok, ?_, rfl⟩
  rw [henum]
  rfl

/-- C6 counterexample: the claim as stated fails — on the input
{"anyOf":[{"type":"string","title":""}],"title":"Name"} the selected child
carries the present title "", yet the result's title is the parent's "Name",
because the JavaScript || operator treats the empty string as absent. -/
theorem extract_title_inheritance_cex :
    ∃ r, extractSchema uTitleEmpty = Except.ok r ∧
      altTitleEmpty.title? = some "" ∧
      r.schema.title? = some "Name" ∧ (("Name" : String) = "" → False) :=
  ⟨_, rfl, rfl, rfl, by decide⟩

/-- C6 amended: for every union resolution, the result's title and
description equal the selected child's value if the child has one present and
non-empty, and otherwise (absent or present-but-empty child value) the union
parent's value. -/
theorem extract_title_description_inheritance (node : SchemaNode)
    (alts : List SchemaNode) (first : SchemaNode) (rest : List SchemaNode)
    (h1 : node.anyOf? = some alts) (h2 : nonNullSchemasOf alts = first :: rest) :
    ∃ r, extractSchema node = Except.ok r ∧
      (∀ t, (selectedSchemaOf (first :: rest) first).title? = some t → ¬ t = "" →
        r.schema.title? = some t) ∧
      (((selectedSchemaOf (first :: rest) first).title? = none ∨
        (selectedSchemaOf (first :: rest) first).title? = some "") →
        r.schema.title? = node.title?) ∧
      (∀ d, (selectedSchemaOf (first :: rest) first).description? = some d → ¬ d = "" →
        r.schema.description? = some d) ∧
      (((selectedSchemaOf (first :: rest) first).description? = none ∨
        (selectedSchemaOf (first :: rest) first).description? = some "") →
        r.schema.description? = node.description?) := by
  have hmem : selectedSchemaOf (first :: rest) first ∈ nonNullSchemasOf alts := by
    rw [h2]; exact selectedSchemaOf_mem first rest
  obtain ⟨-, htype, -⟩ := mem_nonNullSchemasOf hmem
  have htype2 : (selectedSchemaOf (first :: rest) first).type?.isSome = true := htype
  obtain ⟨t, ht⟩ := Option.isSome_iff_exists.mp htype2
  obtain ⟨c, hc, -, htitle, hdescr, -⟩ :=
    combineSchemas_typed (removeAnyOf node)
        (typedSelectedSchema (selectedSchemaOf (first :: rest) first)) t
        (by rw [typedSelectedSchema_type?]; exact ht)
  refine ⟨{ schema := c, parentTitle? := none, parentDescription? := none,
            isNullable := alts.any (fun s => hasType s && s.type? == some "null") },
    ?_, ?_, ?_, ?_, ?_⟩
  · rw [extractSchema_anyOf_cons h1 h2, hc]
    rfl
  · intro t2 hsome hne
    show c.title? = some t2
    rw [htitle, removeAnyOf_title?, typedSelectedSchema_title?, hsome]
    simp [jsOrStr, hne]
  · intro hcase
    show c.title? = node.title?
    rw [htitle, removeAnyOf_title?, typedSelectedSchema_title?]
    rcases hcase with hn | he
    · rw [hn]
      rfl
    · rw [he]
      simp [jsOrStr]
  · intro d2 hsome hne
    show c.description? = some d2
    rw [hdescr, removeAnyOf_description?, typedSelectedSchema_description?, hsome]
    simp [jsOrStr, hne]
  · intro hcase
    show c.description? = node.description?
    rw [hdescr, removeAnyOf_description?, typedSelectedSchema_description?]
    rcases hcase with hn | he
    · rw [hn]
      rfl
    · rw [he]
      simp [jsOrStr]

/-- C6 witness: on {"anyOf":[{"type":"string"}],"title":"Name","default":"x"}
the child carries no title and the result inherits the parent's "Name". -/
theorem extract_title_description_inheritance_witness :
    ∃ r, extractSchema uMeta = Except.ok r ∧ r.schema.title? = some "Name" := by
  obtain ⟨r, hok, -, hnone, -, -⟩ :=
    extract_title_description_inheritance uMeta [altString] altString [] rfl rfl
  refine ⟨r, hok, ?_⟩
  rw [hnone (Or.inl rfl)]
  rfl

/-- C7 counterexample: the claim as stated fails — on the input
{"anyOf":[{"type":"string","default":null}],"default":"x"} the selected child
carries the present (falsy-but-defined) default null, yet the result's
default is the parent's "x", because the JavaScript ?? operator treats null
as absent. -/
theorem extract_default_inheritance_cex :
    ∃ r, extractSchema uDefaultNull = Except.ok r ∧
      altDefaultNull.default? = some Json.null ∧
      r.schema.default? = some (Json.str "x") ∧
      (Json.str "x" = Json.null → False) :=
  ⟨_, rfl, rfl, rfl, fun h => Json.noConfusion h⟩

/-- C7 amended: for every union resolution, the result's default equals the
selected child's default whenever the child's default is present and not the
JSON null value — including falsy-but-defined values such as false, 0 and the
empty string — and otherwise (absent or null child default) falls back to the
union parent's default. -/
theorem extract_default_inheritance (node : SchemaNode)
    (alts : List SchemaNode) (first : SchemaNode) (rest : List SchemaNode)
    (h1 : node.anyOf? = some alts) (h2 : nonNullSchemasOf alts = first :: rest) :
    ∃ r, extractSchema node = Except.ok r ∧
      (∀ v, (selectedSchemaOf (first :: rest) first).default? = some v →
        ¬ v = Json.null → r.schema.default? = some v) ∧
      (((selectedSchemaOf (first :: rest) first).default? = none ∨
        (selectedSchemaOf (first :: rest) first).default? = some Json.null) →
        r.schema.default? = node.default?) := by
  have hmem : selectedSchemaOf (first :: rest) first ∈ nonNullSchemasOf alts := by
    rw [h2]; exact selectedSchemaOf_mem first rest
  obtain ⟨-, htype, -⟩ := mem_nonNullSchemasOf hmem
  have htype2 : (selectedSchemaOf (first :: rest) first).type?.isSome = true := htype
  obtain ⟨t, ht⟩ := Option.isSome_iff_exists.mp htype2
  obtain ⟨c, hc, -, -, -, hdflt⟩ :=
    combineSchemas_typed (removeAnyOf node)
        (typedSelectedSchema (selectedSchemaOf (first :: rest) first)) t
        (by rw [typedSelectedSchema_type?]; exact ht)
  refine ⟨{ schema := c, parentTitle? := none, parentDescription? := none,
            isNullable := alts.any (fun s => hasType s && s.type? == some "null") },
    ?_, ?_, ?_⟩
  · rw [extractSchema_anyOf_cons h1 h2, hc]
    rfl
  · intro v hsome hne
    show c.default? = some v
    rw [hdflt, removeAnyOf_default?, typedSelectedSchema_default?, hsome]
    cases v with
    | null => exact absurd rfl hne
    | bool b => rfl
    | num n => rfl
    | str s => rfl
    | arr xs => rfl
    | obj fs => rfl
  · intro hcase
    show c.default? = node.default?
    rw [hdflt, removeAnyOf_default?, typedSelectedSchema_default?]
    rcases hcase with hn | he
    · rw [hn]
      rfl
    · rw [he]
      rfl

/-- C7 witness: on {"anyOf":[{"type":"string","default":false}],"default":"x"}
the child's falsy-but-defined default false wins over the parent's "x". -/
theorem extract_default_inheritance_witness :
    ∃ r, extractSchema uDefaultFalse = Except.ok r ∧
      r.schema.default? = some (Json.bool false) ∧
      uDefaultFalse.default? = some (Json.str "x") := by
  obtain ⟨r, hok, hv, -⟩ :=
    extract_default_inheritance uDefaultFalse [altDefaultFalse] altDefaultFalse [] rfl rfl
  exact ⟨r, hok, hv (Json.bool false) rfl (fun h => Json.noConfusion h), rfl⟩

/-- C8: Choices normalization — for every union resolution selecting a
primitive, choices are taken from the child if present, else from the union
parent, and when present are normalized by coercing every label, value and
grouped value to its string form. -/
theorem extract_choices_normalization (node : SchemaNode)
    (alts : List SchemaNode) (first : SchemaNode) (rest : List SchemaNode)
    (h1 : node.anyOf? = some alts) (h2 : nonNullSchemasOf alts = first :: rest)
    (h3 : isSchema.primitive (selectedSchemaOf (first :: rest) first) = true) :
    ∃ r, extractSchema node = Except.ok r ∧
      (∀ c, (selectedSchemaOf (first :: rest) first).choices? = some c →
        r.schema.choices? = some (processChoices c)) ∧
      ((selectedSchemaOf (first :: rest) first).choices? = none →
        r.schema.choices? = node.choices?.map processChoices) ∧
      (∀ c, r.schema.choices? = some c → choicesAllStrings c = true) := by
  obtain ⟨t, ht, hscalar⟩ := isSchema.primitive_type h3
  obtain ⟨hna, hno⟩ := scalar_ne_array_object hscalar
  have hcomb := combineSchemas_primitive_eq (removeAnyOf node)
    (typedSelectedSchema (selectedSchemaOf (first :: rest) first)) t
    (by rw [typedSelectedSchema_type?]; exact ht) hna hno
  have hch := createPrimitiveSchema_choices? (removeAnyOf node)
    (typedSelectedSchema (selectedSchemaOf (first :: rest) first)) t
  rw [removeAnyOf_choices?, typedSelectedSchema_choices?] at hch
  refine ⟨{ schema := createPrimitiveSchema (removeAnyOf node)
              (typedSelectedSchema (selectedSchemaOf (first :: rest) first)) t,
            parentTitle? := none, parentDescription? := none,
            isNullable := alts.any (fun s => hasType s && s.type? == some "null") },
    ?_, ?_, ?_, ?_⟩
  · rw [extractSchema_anyOf_cons h1 h2, hcomb]
    rfl
  · intro c hsome
    show (createPrimitiveSchema _ _ _).choices? = some (processChoices c)
    rw [hch, hsome]
    rfl
  · intro hnone
    show (createPrimitiveSchema _ _ _).choices? = node.choices?.map processChoices
    rw [hch, hnone]
    rfl
  · intro c hsome
    show choicesAllStrings c = true
    have hsome2 : (createPrimitiveSchema (removeAnyOf node)
        (typedSelectedSchema (selectedSchemaOf (first :: rest) first)) t).choices? =
          some c := hsome
    rw [hch] at hsome2
    obtain ⟨c0, -, hc0⟩ := Option.map_eq_some'.mp hsome2
    rw [← hc0]
    exact choicesAllStrings_processChoices c0

/-- C8 witness: with choices [{"label":1,"value":2}] on the selected primitive
alternative, the result's choices entries are the strings "1" and "2". -/
theorem extract_choices_normalization_witness :
    ∃ r, extractSchema uChoices = Except.ok r ∧
      r.schema.choices? = some (Choices.pairs [(Json.str "1", Json.str "2")]) ∧
      choicesAllStrings (Choices.pairs [(Json.str "1", Json.str "2")]) = true := by
  obtain ⟨r, hok, hsome, -, -⟩ :=
    extract_choices_normalization uChoices [altChoicesNum] altChoicesNum [] rfl rfl rfl
  refine ⟨r, hok, ?_, rfl⟩
  rw [hsome (Choices.pairs [(Json.num 1, Json.num 2)]) rfl]
  rfl

end SchemaExtractors
